import Mathlib

/-!
Verification development for the garmin-run-tracker import and enrichment
pipeline.  The Rust sources are shallowly embedded: machine integers become
`Nat`/`Int` with explicit wrapping where overflow matters, fallible code
returns `Except`, and the SQLite-backed state becomes explicit record lists
threaded through the functions.
-/

namespace GarminRunTracker

/-! ## SHA-256

`generate_uuid` in `src/lib.rs` calls the `sha2` crate.  The digest is
embedded here following FIPS 180-4 (the algorithm the crate implements), on
`Nat` words reduced modulo `2^32`.  Bytes are `Nat` values below 256. -/

namespace Sha256

/-- 32-bit word ceiling. -/
def w32 : Nat := 4294967296

/-- Rotate a 32-bit word right by `n` bits (arithmetic formulation:
the low `n` bits move to the top). -/
def rotr (n x : Nat) : Nat := (x % 2 ^ n) * 2 ^ (32 - n) + x / 2 ^ n

/-- Bitwise complement within 32 bits. -/
def not32 (x : Nat) : Nat := x ^^^ 4294967295

def ch (x y z : Nat) : Nat := (x &&& y) ^^^ (not32 x &&& z)

def maj (x y z : Nat) : Nat := (x &&& y) ^^^ (x &&& z) ^^^ (y &&& z)

def bigSigma0 (x : Nat) : Nat := rotr 2 x ^^^ rotr 13 x ^^^ rotr 22 x

def bigSigma1 (x : Nat) : Nat := rotr 6 x ^^^ rotr 11 x ^^^ rotr 25 x

def smallSigma0 (x : Nat) : Nat := rotr 7 x ^^^ rotr 18 x ^^^ x / 2 ^ 3

def smallSigma1 (x : Nat) : Nat := rotr 17 x ^^^ rotr 19 x ^^^ x / 2 ^ 10

/-- The 64 round constants of FIPS 180-4 (decimal). -/
def K : List Nat :=
  [1116352408, 1899447441, 3049323471, 3921009573, 961987163,
   1508970993, 2453635748, 2870763221, 3624381080, 310598401,
   607225278, 1426881987, 1925078388, 2162078206, 2614888103,
   3248222580, 3835390401, 4022224774, 264347078, 604807628,
   770255983, 1249150122, 1555081692, 1996064986, 2554220882,
   2821834349, 2952996808, 3210313671, 3336571891, 3584528711,
   113926993, 338241895, 666307205, 773529912, 1294757372,
   1396182291, 1695183700, 1986661051, 2177026350, 2456956037,
   2730485921, 2820302411, 3259730800, 3345764771, 3516065817,
   3600352804, 4094571909, 275423344, 430227734, 506948616,
   659060556, 883997877, 958139571, 1322822218, 1537002063,
   1747873779, 1955562222, 2024104815, 2227730452, 2361852424,
   2428436474, 2756734187, 3204031479, 3329325298]

/-- The initial hash value of FIPS 180-4 (decimal). -/
def H0 : List Nat :=
  [1779033703, 3144134277, 1013904242, 2773480762,
   1359893119, 2600822924, 528734635, 1541459225]

/-- Big-endian 4-byte groups to 32-bit words. -/
def wordsOfBytes : List Nat → List Nat
  | b0 :: b1 :: b2 :: b3 :: rest =>
      (b0 * 2 ^ 24 + b1 * 2 ^ 16 + b2 * 2 ^ 8 + b3) :: wordsOfBytes rest
  | _ => []

/-- One extension step of the message schedule: the next word from the last
sixteen already present. -/
def scheduleStep (w : List Nat) : Nat :=
  (smallSigma1 (w.getD (w.length - 2) 0) + w.getD (w.length - 7) 0 +
   smallSigma0 (w.getD (w.length - 15) 0) + w.getD (w.length - 16) 0) % w32

/-- Extend the 16-word schedule by `n` further words. -/
def buildSchedule : Nat → List Nat → List Nat
  | 0, w => w
  | n + 1, w => buildSchedule n (w ++ [scheduleStep w])

/-- One compression round on the eight-word working state. -/
def round (s : List Nat) (k wi : Nat) : List Nat :=
  match s with
  | [a, b, c, d, e, f, g, h] =>
      let t1 := (h + bigSigma1 e + ch e f g + k + wi) % w32
      let t2 := (bigSigma0 a + maj a b c) % w32
      [(t1 + t2) % w32, a, b, c, (d + t1) % w32, e, f, g]
  | _ => s

/-- Compress one 64-byte block into the running hash. -/
def compressBlock (hs : List Nat) (block : List Nat) : List Nat :=
  let w := buildSchedule 48 (wordsOfBytes block)
  let s := (K.zip w).foldl (fun s kw => round s kw.1 kw.2) hs
  (hs.zip s).map (fun p => (p.1 + p.2) % w32)

/-- Big-endian length-in-bits footer (8 bytes). -/
def lengthBytes (bits : Nat) : List Nat :=
  (List.range 8).map (fun i => bits / 2 ^ (8 * (7 - i)) % 256)

/-- FIPS 180-4 padding: `0x80`, zeros to 56 mod 64, then the bit length. -/
def padMessage (msg : List Nat) : List Nat :=
  msg ++ [0x80] ++ List.replicate ((119 - msg.length % 64) % 64) 0 ++
    lengthBytes (8 * msg.length)

/-- Split into 64-byte blocks; structural recursion on a fuel counter (the
input length bounds the block count, since every block consumes at least
one byte). -/
def chunks64Fuel : Nat → List Nat → List (List Nat)
  | 0, _ => []
  | _, [] => []
  | fuel + 1, x :: xs => ((x :: xs).take 64) :: chunks64Fuel fuel ((x :: xs).drop 64)

/-- Split into 64-byte blocks. -/
def chunks64 (l : List Nat) : List (List Nat) := chunks64Fuel l.length l

/-- One 32-bit word to 4 big-endian bytes. -/
def bytesOfWord (w : Nat) : List Nat :=
  [w / 2 ^ 24 % 256, w / 2 ^ 16 % 256, w / 2 ^ 8 % 256, w % 256]

/-- SHA-256 of a byte sequence, as the 32-byte digest. -/
def sha256 (msg : List Nat) : List Nat :=
  (((chunks64 (padMessage msg)).foldl compressBlock H0).map bytesOfWord).flatten

end Sha256

/-! ## Identity and dedup: `generate_uuid` (`src/lib.rs`) -/

/-- One lowercase hex digit. -/
def hexChar (n : Nat) : Char :=
  if n < 10 then Char.ofNat (48 + n) else Char.ofNat (87 + n)

/-- Two hex digits for one byte (`hex::encode` emits lowercase). -/
def hexByte (b : Nat) : List Char := [hexChar (b / 16), hexChar (b % 16)]

/-- `hex::encode` of a byte sequence, as a character list. -/
def hexChars (bs : List Nat) : List Char := bs.flatMap hexByte

/-- Rust `String::insert(i, c)`: insert `c` before position `i`. -/
def insertAt (l : List Char) (i : Nat) (c : Char) : List Char :=
  l.take i ++ [c] ++ l.drop i

/-- `generate_uuid` from `src/lib.rs`: SHA-256 the data, force the version /
variant bytes with `(d6 &&& 0b00001111) ||| 0b01001111` and
`(d10 &&& 0b00111111) ||| 0b10111111`, hex-encode, truncate to 32 hex
characters and insert dashes at positions 20, 16, 12, 8 (in that order). -/
def generate_uuid (data : List Nat) : String :=
  let result := Sha256.sha256 data
  let result := result.set 6 ((result.getD 6 0 &&& 0b00001111) ||| 0b01001111)
  let result := result.set 10 ((result.getD 10 0 &&& 0b00111111) ||| 0b10111111)
  let uuid := (hexChars result).take 32
  let uuid := insertAt uuid 20 '-'
  let uuid := insertAt uuid 16 '-'
  let uuid := insertAt uuid 12 '-'
  let uuid := insertAt uuid 8 '-'
  String.mk uuid

/-- The fingerprint function as claim C2 words it: only bits 4-7 of digest
byte 6 become `0100` and only bits 6-7 of byte 10 become `10`, all other
bits of those bytes staying unchanged; then hex the first 16 bytes and
insert the dashes. -/
def uuid_claimC2 (data : List Nat) : String :=
  let result := Sha256.sha256 data
  let result := result.set 6 ((result.getD 6 0 &&& 0b00001111) ||| 0b01000000)
  let result := result.set 10 ((result.getD 10 0 &&& 0b00111111) ||| 0b10000000)
  let uuid := hexChars (result.take 16)
  let uuid := insertAt uuid 20 '-'
  let uuid := insertAt uuid 16 '-'
  let uuid := insertAt uuid 12 '-'
  let uuid := insertAt uuid 8 '-'
  String.mk uuid

/-- The fingerprint as amended: digest byte 6 is replaced by `0x4f` outright
(bits 4-7 hold `0100` and bits 0-3 are forced to `1111`) and byte 10 by
`0xbf` (bits 6-7 hold `10` and bits 0-5 are forced to `1`); then hex the
first 16 bytes and insert the dashes. -/
def uuid_amendedC2 (data : List Nat) : String :=
  let result := Sha256.sha256 data
  let result := result.set 6 0x4f
  let result := result.set 10 0xbf
  let uuid := hexChars (result.take 16)
  let uuid := insertAt uuid 20 '-'
  let uuid := insertAt uuid 16 '-'
  let uuid := insertAt uuid 12 '-'
  let uuid := insertAt uuid 8 '-'
  String.mk uuid

/-! ## Import engine: `import_fit_data` (`src/lib.rs`)

Decoded FIT messages carry a name-to-value field map (`create_fit_data_map`);
field values are opaque to the import logic, so they are embedded as `Int`.
The SQLite tables become record lists; the `not null` columns of
`src/schema.rs` are enforced at insert, since binding a missing field or a
missing owning file id binds SQL `NULL` and the insert then fails.  The
whole import runs in one transaction that it commits itself; every error path
drops the transaction, so on error the caller observes the unchanged
database.  Row ids model SQLite rowids: one larger than the table size. -/

/-- A decoded message field map, keyed by field name. -/
abbrev FieldMap := List (String × Int)

/-- `HashMap::get` on the field map built by `create_fit_data_map`. -/
def FieldMap.get (m : FieldMap) (k : String) : Option Int :=
  (List.lookup k m : Option Int)

/-- The decoded message kinds `import_fit_data` distinguishes. -/
inductive Mesg
  | fileId (data : FieldMap)
  | lap (data : FieldMap)
  | record (data : FieldMap)
  | other

/-- The crate error enum (`src/error.rs`), restricted to the variants
the import path can carry; `Rusqlite` holds the storage engine's
message. -/
inductive Error
  | DuplicateFileError (uuid : String)
  | FileIdMessageNotFound (uuid : String)
  | Rusqlite (msg : String)
deriving DecidableEq

/-- A row of `files`: `type`, `device_serial_number` and `time_created` are
`not null`; manufacturer and product are nullable. -/
structure FileRow where
  type : Int
  device_manufacturer : Option Int
  device_product : Option Int
  device_serial_number : Int
  time_created : Int
  uuid : String
  id : Nat
deriving DecidableEq

/-- A row of `record_messages` (`timestamp` and `file_id` are `not null`). -/
structure RecordRow where
  position_lat : Option Int
  position_long : Option Int
  speed : Option Int
  distance : Option Int
  heart_rate : Option Int
  timestamp : Int
  file_id : Nat
  id : Nat
deriving DecidableEq

/-- A row of `lap_messages` (`start_time`, `timestamp`, `file_id` not null). -/
structure LapRow where
  start_position_lat : Option Int
  start_position_long : Option Int
  end_position_lat : Option Int
  end_position_long : Option Int
  average_speed : Option Int
  average_heart_rate : Option Int
  total_calories : Option Int
  total_distance : Option Int
  start_time : Int
  timestamp : Int
  file_id : Nat
  id : Nat
deriving DecidableEq

/-- The application database state. -/
structure Db where
  files : List FileRow
  records : List RecordRow
  laps : List LapRow
deriving DecidableEq

def emptyDb : Db := ⟨[], [], []⟩

/-- The `insert into files ...` statement of the `FileId` arm: binds
`type`, `manufacturer`, `garmin_product`, `serial_number`, `time_created`
and the uuid; `not null` columns reject an absent field. -/
def insertFile (db : Db) (data : FieldMap) (uuid : String) : Except Error Db :=
  match data.get "type", data.get "serial_number", data.get "time_created" with
  | some ty, some sn, some tc =>
      .ok { db with files := db.files ++
        [⟨ty, data.get "manufacturer", data.get "garmin_product", sn, tc, uuid,
          db.files.length + 1⟩] }
  | _, _, _ => .error (.Rusqlite "NOT NULL constraint failed: files")

/-- The `insert into record_messages ...` statement of the `Record` arm;
binding `file_rec_id = None` or a missing `timestamp` binds `NULL` into a
`not null` column and the insert fails. -/
def insertRecord (db : Db) (data : FieldMap) (file_rec_id : Option Nat) :
    Except Error Db :=
  match file_rec_id, data.get "timestamp" with
  | some fid, some ts =>
      .ok { db with records := db.records ++
        [⟨data.get "position_lat", data.get "position_long",
          data.get "enhanced_speed", data.get "distance",
          data.get "heart_rate", ts, fid, db.records.length + 1⟩] }
  | _, _ => .error (.Rusqlite "NOT NULL constraint failed: record_messages")

/-- The `insert into lap_messages ...` statement of the `Lap` arm. -/
def insertLap (db : Db) (data : FieldMap) (file_rec_id : Option Nat) :
    Except Error Db :=
  match file_rec_id, data.get "start_time", data.get "timestamp" with
  | some fid, some st, some ts =>
      .ok { db with laps := db.laps ++
        [⟨data.get "start_position_lat", data.get "start_position_long",
          data.get "end_position_lat", data.get "end_position_long",
          data.get "enhanced_avg_speed", data.get "avg_heart_rate",
          data.get "total_calories", data.get "total_distance",
          st, ts, fid, db.laps.length + 1⟩] }
  | _, _, _ => .error (.Rusqlite "NOT NULL constraint failed: lap_messages")

/-- The message loop of `import_fit_data`: `FileId` inserts a file row and
points `file_rec_id` at it, `Lap`/`Record` insert one row bound to the
current `file_rec_id`, anything else is only traced. -/
def runMesgs (uuid : String) :
    List Mesg → Db → Option Nat → Except Error Db
  | [], db, _ => .ok db
  | .fileId data :: rest, db, _ =>
      match insertFile db data uuid with
      | .ok db2 => runMesgs uuid rest db2 (some (db2.files.length))
      | .error e => .error e
  | .lap data :: rest, db, fid =>
      match insertLap db data fid with
      | .ok db2 => runMesgs uuid rest db2 fid
      | .error e => .error e
  | .record data :: rest, db, fid =>
      match insertRecord db data fid with
      | .ok db2 => runMesgs uuid rest db2 fid
      | .error e => .error e
  | .other :: rest, db, fid => runMesgs uuid rest db fid

/-- `import_fit_data`: fingerprint the raw bytes, reject a duplicate before
decoding, then run the decoded messages (`decoded` models the
`fitparser::from_bytes` result, which the engine surfaces unchanged) inside
one transaction; the function returns the database visible after it ran:
unchanged on every error (the dropped transaction rolls back), the staged
state once committed. -/
def import_fit_data (db : Db) (data : List Nat)
    (decoded : Except Error (List Mesg)) : Db × Except Error String :=
  if db.files.any (fun f => f.uuid = generate_uuid data) then
    (db, .error (.DuplicateFileError (generate_uuid data)))
  else
    match decoded with
    | .error e => (db, .error e)
    | .ok messages =>
        match runMesgs (generate_uuid data) messages db none with
        | .ok db2 => (db2, .ok (generate_uuid data))
        | .error e => (db, .error e)

/-! ## Query builder (`garmin_run_tracker/src/db/mod.rs`) -/

/-- The declarative query constructor. -/
structure QueryStringBuilder where
  base_query : String
  where_clauses : List String
  order_by : List String
  limit : Option Nat

namespace QueryStringBuilder

/-- `QueryStringBuilder::new`. -/
def new (base_query : String) : QueryStringBuilder :=
  ⟨base_query, [], [], none⟩

/-- `and_where`: push one predicate fragment. -/
def and_where (q : QueryStringBuilder) (clause : String) : QueryStringBuilder :=
  { q with where_clauses := q.where_clauses ++ [clause] }

/-- The `order_by` method: push one ordering fragment (named apart from the
field it pushes onto). -/
def push_order_by (q : QueryStringBuilder) (clause : String) :
    QueryStringBuilder :=
  { q with order_by := q.order_by ++ [clause] }

/-- The `limit` method. -/
def set_limit (q : QueryStringBuilder) (value : Nat) : QueryStringBuilder :=
  { q with limit := some value }

/-- The `where` section of `Display`: seed with the first clause, fold the
rest with the " and " separator. -/
def renderWhere : List String → String
  | [] => ""
  | c :: rest => rest.foldl (fun b c2 => b ++ " and " ++ c2) (" where " ++ c)

/-- The `order by` section of `Display`. -/
def renderOrderBy : List String → String
  | [] => ""
  | c :: rest => rest.foldl (fun b c2 => b ++ ", " ++ c2) (" order by " ++ c)

/-- The `limit` section of `Display`. -/
def renderLimit : Option Nat → String
  | some value => " limit " ++ toString value
  | none => ""

/-- The `Display` implementation: base, predicates, ordering, limit. -/
def render (q : QueryStringBuilder) : String :=
  q.base_query ++ renderWhere q.where_clauses ++ renderOrderBy q.order_by ++
    renderLimit q.limit

end QueryStringBuilder

/-- The spec's reading of "joined with" a separator. -/
def joinSep (sep : String) : List String → String
  | [] => ""
  | [c] => c
  | c :: c2 :: rest => c ++ sep ++ joinSep sep (c2 :: rest)

/-! ## GPS codec (`garmin_run_tracker/src/gps.rs`)

The source stores degree coordinates as `f32` and scales them with `f32`
arithmetic.  The embedding uses exact rationals for the degree values: the
claims settled against this section either quantify over the semicircle
integers (where only the magnitude bound `|degrees| <= 180` matters, which
holds in both arithmetics) or evaluate at the reference inputs of claim C8,
where the `f32` computation and the exact computation round to the same
scaled integers (checked by hand against IEEE-754 single rounding).
`i32` arithmetic is embedded as `Int` with explicit two's-complement
wrapping. -/

/-- Wrap an integer into the `i32` range. -/
def wrap32 (n : Int) : Int := (n + 2147483648) % 4294967296 - 2147483648

/-- A geospatial point: degrees plus optional elevation in meters. -/
structure Location where
  latitude : Rat
  longitude : Rat
  elevation : Option Rat
deriving DecidableEq

namespace Location

/-- `Location::from_fit_coordinates`: semicircles to degrees via
`degrees = native * 180 / 2^31`. -/
def from_fit_coordinates (latitude longitude : Int) : Location :=
  ⟨(latitude : Rat) * 180 / 2147483648, (longitude : Rat) * 180 / 2147483648,
    none⟩

/-- `Location::set_elevation`. -/
def set_elevation (l : Location) (elevation : Option Rat) : Location :=
  { l with elevation := elevation }

end Location

/-- `scale`: multiply by the 5-digit precision factor 100000 and round to
nearest, halves away from zero (Rust `f32::round`).  Marked irreducible so
that elaboration never unfolds symbolic rational arithmetic; proofs use
the equation lemma. -/
@[irreducible]
def scale (n : Rat) : Int :=
  if 100000 * n < 0 then -round (-(100000 * n)) else round (100000 * n)

/-- The chunk emitter of `encode`: while five or more bits remain emit
`(0x20 | (c & 0x1f)) + 63` and shift right by five (for the nonnegative
values reaching the loop, `0x20 | (c & 0x1f)` is `0x20 + c % 0x20` and the
arithmetic shift is division by 32); the final chunk is `c + 63`.
Structural recursion on a fuel counter: every `i32` value is consumed
within seven iterations, so fuel 32 never runs out on values the source
can hold. -/
def chunkCodesFuel : Nat → Int → List Int
  | 0, c => [c + 63]
  | fuel + 1, c =>
      if 0x20 ≤ c then ((0x20 + c % 0x20) + 63) :: chunkCodesFuel fuel (c / 0x20)
      else [c + 63]

def chunkCodes (c : Int) : List Int := chunkCodesFuel 32 c

/-- `char::from_u32` applied to an `i32` cast `as u32`: the cast wraps into
`[0, 2^32)` and the conversion succeeds only below `0x110000` and outside
the surrogate range. -/
def charFromU32 (n : Int) : Option Char :=
  let u := n % 2 ^ 32
  if u < 0xd800 ∨ (0xe000 ≤ u ∧ u < 0x110000) then some (Char.ofNat u.toNat)
  else none

/-- Convert the chunk codes to characters in emission order; `none` as soon
as one code is not a valid character. -/
def chunkChars : List Int → Option (List Char)
  | [] => some []
  | c :: rest =>
      match charFromU32 c, chunkChars rest with
      | some ch, some chs => some (ch :: chs)
      | _, _ => none

/-- Build the output string, failing like the source when a code is not a
valid character. -/
def chunksToString (codes : List Int) : Except String String :=
  match chunkChars codes with
  | some chars => .ok (String.mk chars)
  | none => .error "Couldn't convert character"

/-- `encode`: delta, left shift by one (wrapping `i32` arithmetic), bitwise
inversion when the delta was negative (`!x = -x - 1` stays in range), then
the 5-bit continuation chunks. -/
def encode (current previous : Int) : Except String String :=
  let d := wrap32 (current - previous)
  let coordinate := wrap32 (d * 2)
  let coordinate := if d < 0 then -coordinate - 1 else coordinate
  chunksToString (chunkCodes coordinate)

/-- The fold of `encode_coordinates`: previous scaled pair `b` starts at the
origin; each point contributes its encoded latitude then longitude. -/
def encLoop : List Location → Int × Int → String → Except String String
  | [], _, output => .ok output
  | a :: rest, b, output =>
      match encode (scale a.latitude) b.1 with
      | .error e => .error e
      | .ok e1 =>
          match encode (scale a.longitude) b.2 with
          | .error e => .error e
          | .ok e2 => encLoop rest (scale a.latitude, scale a.longitude)
              (output ++ e1 ++ e2)
termination_by structural pts => pts

/-- `encode_coordinates`: polyline-encode a coordinate sequence. -/
def encode_coordinates (coordinates : List Location) : Except String String :=
  encLoop coordinates (0, 0) ""

/-! ## Enrichment engine (`garmin_run_tracker/src/services/elevation/mod.rs`)

The elevation collaborator mutates a fixed-length `&mut [Location]` slice in
place; it is embedded as a function from the location list to `Except` of
the (same-length, for any real implementation) updated list.  Elevation
values are opaque to this code path (stored and counted, never computed
with), so the `f32`/`f64` values pass through the `Rat`-valued `elevation`
field unchanged.  The two `select` statements, built with
`QueryStringBuilder` from fixed fragments, are interpreted as filters over
the corresponding tables, one conjunct per `and_where` fragment.  The row
columns not touched by this module are omitted from the embedded rows. -/

/-- The elevation collaborator (`ElevationDataSource::request_elevation_data`). -/
abbrev ElevationSvc := List Location → Except String (List Location)

/-- A `record_messages` row as the enrichment engine sees it. -/
structure ERecordRow where
  position_lat : Option Int
  position_long : Option Int
  elevation : Option Rat
  file_id : Nat
  id : Int
deriving DecidableEq

/-- A `lap_messages` row as the enrichment engine sees it. -/
structure ELapRow where
  start_position_lat : Option Int
  start_position_long : Option Int
  start_elevation : Option Rat
  end_position_lat : Option Int
  end_position_long : Option Int
  end_elevation : Option Rat
  file_id : Nat
  id : Int
deriving DecidableEq

/-- The tables the enrichment engine reads and writes. -/
structure EDb where
  record_messages : List ERecordRow
  lap_messages : List ELapRow
deriving DecidableEq

/-- The record query of `update_elevation_data`: `position_lat is not null`,
`position_long is not null`, then `elevation is null` unless a single file
is being overwritten, then the file scope. -/
def recSelect (file_id : Option Nat) (overwrite : Bool) (r : ERecordRow) :
    Bool :=
  r.position_lat.isSome && r.position_long.isSome &&
    (if file_id.isNone || !overwrite then r.elevation.isNone else true) &&
    (match file_id with
     | some fid => r.file_id == fid
     | none => true)

/-- The lap query of `update_elevation_data` (the null test is on
`start_elevation`). -/
def lapSelect (file_id : Option Nat) (overwrite : Bool) (r : ELapRow) :
    Bool :=
  r.start_position_lat.isSome && r.start_position_long.isSome &&
    (if file_id.isNone || !overwrite then r.start_elevation.isNone else true) &&
    (match file_id with
     | some fid => r.file_id == fid
     | none => true)

/-- The `Location` a selected record row is materialized into
(`row.get(0)`/`row.get(1)` read the non-null coordinates). -/
def recLoc (r : ERecordRow) : Location :=
  Location.from_fit_coordinates (r.position_lat.getD 0) (r.position_long.getD 0)

/-- The start `Location` of a selected lap row. -/
def lapStartLoc (r : ELapRow) : Location :=
  Location.from_fit_coordinates (r.start_position_lat.getD 0)
    (r.start_position_long.getD 0)

/-- The end `Location` of a selected lap row. -/
def lapEndLoc (r : ELapRow) : Location :=
  Location.from_fit_coordinates (r.end_position_lat.getD 0)
    (r.end_position_long.getD 0)

/-- `update record_messages set elevation = ? where id = ?`. -/
def updateRecordElevation (db : EDb) (id : Int) (v : Option Rat) : EDb :=
  { db with record_messages :=
      db.record_messages.map (fun r =>
        if r.id = id then { r with elevation := v } else r) }

/-- `update lap_messages set start_elevation = ?, end_elevation = ?
where id = ?`. -/
def updateLapElevation (db : EDb) (id : Int) (sv ev : Option Rat) : EDb :=
  { db with lap_messages :=
      db.lap_messages.map (fun r =>
        if r.id = id then { r with start_elevation := sv, end_elevation := ev }
        else r) }

/-- `add_record_elevation_data`: materialize the selected rows into
locations and ids, call the service once, write every returned elevation
back by row id (an absent elevation binds SQL `NULL`), and return
`(rows set, rows attempted)`. -/
def add_record_elevation_data (src : ElevationSvc) (db : EDb)
    (rows : List ERecordRow) : Except String (EDb × Nat × Nat) :=
  let locations := rows.map recLoc
  let record_ids := rows.map (fun r => r.id)
  match src locations with
  | .error e => .error e
  | .ok locs =>
      let db2 := (locs.zip record_ids).foldl
        (fun d p => updateRecordElevation d p.2 p.1.elevation) db
      .ok (db2, (locs.filter (fun l => l.elevation.isSome)).length,
        locations.length)

/-- `add_lap_elevation_data`: one service call for the start locations, one
for the end locations, write both back by row id, and return the counts
computed from the start locations. -/
def add_lap_elevation_data (src : ElevationSvc) (db : EDb)
    (rows : List ELapRow) : Except String (EDb × Nat × Nat) :=
  let st_locations := rows.map lapStartLoc
  let en_locations := rows.map lapEndLoc
  let record_ids := rows.map (fun r => r.id)
  match src st_locations with
  | .error e => .error e
  | .ok st_locs =>
      match src en_locations with
      | .error e => .error e
      | .ok en_locs =>
          let db2 := ((st_locs.zip en_locs).zip record_ids).foldl
            (fun d p => updateLapElevation d p.2 p.1.1.elevation p.1.2.elevation)
            db
          .ok (db2, (st_locs.filter (fun l => l.elevation.isSome)).length,
            st_locations.length)

/-- `update_elevation_data`: build both selections, log-and-continue past
the refused whole-database overwrite (the guard only warns), enrich the
record rows, then the lap rows, and return the two `(set, attempted)` pairs
the source logs at info level. -/
def update_elevation_data (src : ElevationSvc) (db : EDb)
    (file_id : Option Nat) (overwrite : Bool) :
    Except String (EDb × (Nat × Nat) × (Nat × Nat)) :=
  let recRows := db.record_messages.filter (recSelect file_id overwrite)
  match add_record_elevation_data src db recRows with
  | .error e => .error e
  | .ok (db1, recCounts) =>
      let lapRows := db1.lap_messages.filter (lapSelect file_id overwrite)
      match add_lap_elevation_data src db1 lapRows with
      | .error e => .error e
      | .ok (db2, lapCounts) => .ok (db2, recCounts, lapCounts)

/-! ## Theorems -/

/-! ### C7: query builder rendering -/

/-- Suffix of a separated join: one separator before every element. -/
def sepTail (sep : String) : List String → String
  | [] => ""
  | c :: rest => sep ++ c ++ sepTail sep rest

theorem foldl_sep (sep : String) (l : List String) (acc : String) :
    l.foldl (fun b c => b ++ sep ++ c) acc = acc ++ sepTail sep l := by
  induction l generalizing acc with
  | nil => simp [sepTail, String.append_empty]
  | cons c cs ih =>
      rw [List.foldl_cons, ih, sepTail]
      simp [String.append_assoc]

theorem joinSep_cons_eq (sep c : String) (l : List String) :
    joinSep sep (c :: l) = c ++ sepTail sep l := by
  induction l generalizing c with
  | nil => simp [joinSep, sepTail, String.append_empty]
  | cons c2 cs ih => simp [joinSep, sepTail, ih, String.append_assoc]

theorem renderWhere_eq (l : List String) :
    QueryStringBuilder.renderWhere l =
      if l.isEmpty then "" else " where " ++ joinSep " and " l := by
  cases l with
  | nil => rfl
  | cons c cs =>
      rw [QueryStringBuilder.renderWhere, foldl_sep, joinSep_cons_eq]
      simp [String.append_assoc]

theorem renderOrderBy_eq (l : List String) :
    QueryStringBuilder.renderOrderBy l =
      if l.isEmpty then "" else " order by " ++ joinSep ", " l := by
  cases l with
  | nil => rfl
  | cons c cs =>
      rw [QueryStringBuilder.renderOrderBy, foldl_sep, joinSep_cons_eq]
      simp [String.append_assoc]

/-- The builder holding a base query, predicate fragments and ordering
fragments accumulated in insertion order, and an optional limit. -/
def builderOf (base : String) (preds ords : List String) (lim : Option Nat) :
    QueryStringBuilder :=
  let q := QueryStringBuilder.new base
  let q := preds.foldl QueryStringBuilder.and_where q
  let q := ords.foldl QueryStringBuilder.push_order_by q
  match lim with
  | some n => q.set_limit n
  | none => q

theorem foldl_and_where (preds : List String) (q : QueryStringBuilder) :
    preds.foldl QueryStringBuilder.and_where q =
      { q with where_clauses := q.where_clauses ++ preds } := by
  induction preds generalizing q with
  | nil => simp
  | cons p ps ih => simp [QueryStringBuilder.and_where, ih]

theorem foldl_push_order_by (ords : List String) (q : QueryStringBuilder) :
    ords.foldl QueryStringBuilder.push_order_by q =
      { q with order_by := q.order_by ++ ords } := by
  induction ords generalizing q with
  | nil => simp
  | cons p ps ih => simp [QueryStringBuilder.push_order_by, ih]

/-- C7: the builder renders exactly the base query, then (when predicates
were accumulated) " where " and the predicates joined with " and " in
insertion order, then (when orderings were accumulated) " order by " and
the orderings joined with ", " in insertion order, then (when a limit was
set) " limit N"; empty sections contribute nothing, and rendering is a pure
function of the accumulated state, hence deterministic. -/
theorem claim_C7_query_builder_renders (base : String)
    (preds ords : List String) (lim : Option Nat) :
    (builderOf base preds ords lim).render =
      base ++ (if preds.isEmpty then "" else " where " ++ joinSep " and " preds)
        ++ (if ords.isEmpty then "" else " order by " ++ joinSep ", " ords)
        ++ (match lim with
            | some n => " limit " ++ toString n
            | none => "") := by
  cases lim with
  | none =>
      simp [builderOf, QueryStringBuilder.render, QueryStringBuilder.new,
        foldl_and_where, foldl_push_order_by, renderWhere_eq, renderOrderBy_eq,
        QueryStringBuilder.renderLimit, String.append_empty]
  | some n =>
      simp [builderOf, QueryStringBuilder.render, QueryStringBuilder.new,
        QueryStringBuilder.set_limit, foldl_and_where, foldl_push_order_by,
        renderWhere_eq, renderOrderBy_eq, QueryStringBuilder.renderLimit]

/-! ### C2: the fingerprint function -/

/-- Sanity anchor: the embedded SHA-256 reproduces the FIPS 180-4 test
vector for the empty message. -/
theorem sha256_empty_vector :
    String.mk (hexChars (Sha256.sha256 [])) =
      "e3b0c44298fc1c149afbf4c8996fb92427ae41e4649b934ca495991b7852b855" := by
  decide

/-- Sanity anchor: the embedded SHA-256 reproduces the FIPS 180-4 test
vector for the three-byte message "abc". -/
theorem sha256_abc_vector :
    String.mk (hexChars (Sha256.sha256 [97, 98, 99])) =
      "ba7816bf8f01cfea414140de5dae2223b00361a396177a9cb410ff61f20015ad" := by
  decide

theorem force_4f (x : Nat) : (x &&& 0b00001111) ||| 0b01001111 = 0x4f := by
  have h : x &&& 0b00001111 < 16 :=
    Nat.lt_succ_of_le (Nat.and_le_right (n := x) (m := 0b00001111))
  revert h
  generalize x &&& 0b00001111 = y
  revert y
  decide

theorem force_bf (x : Nat) : (x &&& 0b00111111) ||| 0b10111111 = 0xbf := by
  have h : x &&& 0b00111111 < 64 :=
    Nat.lt_succ_of_le (Nat.and_le_right (n := x) (m := 0b00111111))
  revert h
  generalize x &&& 0b00111111 = y
  revert y
  decide

theorem hexChars_take (l : List Nat) (n : Nat) :
    (hexChars l).take (2 * n) = hexChars (l.take n) := by
  induction l generalizing n with
  | nil => simp [hexChars]
  | cons b bs ih =>
      cases n with
      | zero => simp [hexChars]
      | succ m =>
          simp only [hexChars, List.flatMap_cons, List.take_succ_cons] at *
          rw [show 2 * (m + 1) = 2 * m + 1 + 1 by ring]
          simp [hexByte, List.take_succ_cons, ih]

/-- C2 counterexample: at the empty byte sequence the fingerprint differs
from the claim's description, because the source also forces bits 0-3 of
digest byte 6 and bits 0-5 of digest byte 10 to all-ones (`| 0b01001111`
and `| 0b10111111`) instead of leaving them unchanged. -/
theorem claim_C2_counterexample : generate_uuid [] ≠ uuid_claimC2 [] := by
  decide

/-- C2 (amended): for every byte sequence, the fingerprint SHA-256-digests
the bytes, replaces digest byte 6 by `0x4f` (bits 4-7 get the pattern
`0100`, bits 0-3 are forced to `1111`) and digest byte 10 by `0xbf` (bits
6-7 get the pattern `10`, bits 0-5 are forced to `1`), hex-encodes the
first 16 bytes of the modified digest, and inserts dashes after hex
positions 8, 12, 16, 20, yielding the five-group 8-4-4-4-12 layout. -/
theorem claim_C2_amended_fingerprint (data : List Nat) :
    generate_uuid data = uuid_amendedC2 data := by
  simp only [generate_uuid, uuid_amendedC2, force_4f, force_bf]
  rw [show (32 : Nat) = 2 * 16 from rfl, hexChars_take]

/-! ### C1: the whole-database overwrite guard -/

/-- A service that returns elevation 5 for every location. -/
def exSvcC1 : ElevationSvc :=
  fun ls => .ok (ls.map (fun l => l.set_elevation (some 5)))

/-- One record row with coordinates and no elevation yet. -/
def exDbC1 : EDb := ⟨[⟨some 0, some 0, none, 1, 1⟩], []⟩

/-- C1 counterexample: `enrich(None, overwrite=true)` is not a no-op: the
guard only logs a warning and the engine proceeds, here mutating the
single elevation-less record row and reporting counts `(1, 1)`, not zero
counts on an unchanged database. -/
theorem claim_C1_counterexample :
    update_elevation_data exSvcC1 exDbC1 none true =
        .ok (⟨[⟨some 0, some 0, some 5, 1, 1⟩], []⟩, (1, 1), (0, 0)) ∧
      (⟨[⟨some 0, some 0, some 5, 1, 1⟩], []⟩ : EDb) ≠ exDbC1 := by
  refine ⟨rfl, ?_⟩
  decide

/-- C1 (amended): when `file_identifier` is absent and `overwrite` is true
the engine does not refuse to run; it only logs a warning and then behaves
exactly as the same call with `overwrite = false` — both selections keep
the `elevation is null` restriction, so rows whose elevation is already set
are never touched while elevation-less rows are still enriched and
counted. -/
theorem claim_C1_amended_overwrite_guard (src : ElevationSvc) (db : EDb) :
    update_elevation_data src db none true =
      update_elevation_data src db none false := by
  unfold update_elevation_data
  have hr : recSelect none true = recSelect none false := by
    funext r; simp [recSelect]
  have hl : lapSelect none true = lapSelect none false := by
    funext r; simp [lapSelect]
  rw [hr, hl]

/-! ### Import-engine lemmas shared by C3, C4 and C5 -/

theorem insertFile_error_shape (db : Db) (d : FieldMap) (u : String)
    (e : Error) (h : insertFile db d u = .error e) : ∃ m, e = .Rusqlite m := by
  unfold insertFile at h
  split at h
  · cases h
  · cases h; exact ⟨_, rfl⟩

theorem insertRecord_error_shape (db : Db) (d : FieldMap) (fid : Option Nat)
    (e : Error) (h : insertRecord db d fid = .error e) :
    ∃ m, e = .Rusqlite m := by
  unfold insertRecord at h
  split at h
  · cases h
  · cases h; exact ⟨_, rfl⟩

theorem insertLap_error_shape (db : Db) (d : FieldMap) (fid : Option Nat)
    (e : Error) (h : insertLap db d fid = .error e) : ∃ m, e = .Rusqlite m := by
  unfold insertLap at h
  split at h
  · cases h
  · cases h; exact ⟨_, rfl⟩

/-- Every error escaping the message loop is a storage error: the loop
never constructs `FileIdMessageNotFound` (or any other variant). -/
theorem runMesgs_error_shape (u : String) (msgs : List Mesg) (db : Db)
    (fid : Option Nat) (e : Error) (h : runMesgs u msgs db fid = .error e) :
    ∃ m, e = .Rusqlite m := by
  induction msgs generalizing db fid with
  | nil => cases h
  | cons m rest ih =>
      cases m with
      | fileId d =>
          rw [runMesgs] at h
          cases hins : insertFile db d u with
          | ok db2 => rw [hins] at h; exact ih db2 _ h
          | error e2 =>
              rw [hins] at h; cases h
              exact insertFile_error_shape db d u _ hins
      | lap d =>
          rw [runMesgs] at h
          cases hins : insertLap db d fid with
          | ok db2 => rw [hins] at h; exact ih db2 _ h
          | error e2 =>
              rw [hins] at h; cases h
              exact insertLap_error_shape db d fid _ hins
      | record d =>
          rw [runMesgs] at h
          cases hins : insertRecord db d fid with
          | ok db2 => rw [hins] at h; exact ih db2 _ h
          | error e2 =>
              rw [hins] at h; cases h
              exact insertRecord_error_shape db d fid _ hins
      | other => rw [runMesgs] at h; exact ih db fid h

theorem insertFile_files (db : Db) (d : FieldMap) (u : String) (db2 : Db)
    (h : insertFile db d u = .ok db2) :
    ∃ r, db2.files = db.files ++ [r] ∧ r.uuid = u := by
  unfold insertFile at h
  split at h
  · cases h; exact ⟨_, rfl, rfl⟩
  · cases h

theorem insertRecord_files (db : Db) (d : FieldMap) (fid : Option Nat)
    (db2 : Db) (h : insertRecord db d fid = .ok db2) : db2.files = db.files := by
  unfold insertRecord at h
  split at h
  · cases h; rfl
  · cases h

theorem insertLap_files (db : Db) (d : FieldMap) (fid : Option Nat)
    (db2 : Db) (h : insertLap db d fid = .ok db2) : db2.files = db.files := by
  unfold insertLap at h
  split at h
  · cases h; rfl
  · cases h

/-- The message loop only ever appends to `files`. -/
theorem runMesgs_files_mono (u : String) (msgs : List Mesg) (db : Db)
    (fid : Option Nat) (db2 : Db) (h : runMesgs u msgs db fid = .ok db2) :
    ∃ s, db2.files = db.files ++ s := by
  induction msgs generalizing db fid with
  | nil => cases h; exact ⟨[], (List.append_nil _).symm⟩
  | cons m rest ih =>
      cases m with
      | fileId d =>
          rw [runMesgs] at h
          cases hins : insertFile db d u with
          | ok db1 =>
              rw [hins] at h
              obtain ⟨r, hr, -⟩ := insertFile_files db d u db1 hins
              obtain ⟨s, hs⟩ := ih db1 _ h
              exact ⟨[r] ++ s, by rw [hs, hr, List.append_assoc]⟩
          | error e2 => rw [hins] at h; cases h
      | lap d =>
          rw [runMesgs] at h
          cases hins : insertLap db d fid with
          | ok db1 =>
              rw [hins] at h
              obtain ⟨s, hs⟩ := ih db1 _ h
              exact ⟨s, by rw [hs, insertLap_files db d fid db1 hins]⟩
          | error e2 => rw [hins] at h; cases h
      | record d =>
          rw [runMesgs] at h
          cases hins : insertRecord db d fid with
          | ok db1 =>
              rw [hins] at h
              obtain ⟨s, hs⟩ := ih db1 _ h
              exact ⟨s, by rw [hs, insertRecord_files db d fid db1 hins]⟩
          | error e2 => rw [hins] at h; cases h
      | other => rw [runMesgs] at h; exact ih db fid h

/-- If the loop processed a file-identity message and succeeded, a file row
carrying the import's fingerprint is in the resulting `files` table. -/
theorem runMesgs_fileId_uuid (u : String) (msgs : List Mesg) (db : Db)
    (fid : Option Nat) (db2 : Db) (h : runMesgs u msgs db fid = .ok db2)
    (hmem : ∃ d, Mesg.fileId d ∈ msgs) :
    ∃ f ∈ db2.files, f.uuid = u := by
  induction msgs generalizing db fid with
  | nil => obtain ⟨d, hd⟩ := hmem; cases hd
  | cons m rest ih =>
      obtain ⟨d, hd⟩ := hmem
      rcases List.mem_cons.mp hd with heq | htl
      · subst heq
        rw [runMesgs] at h
        cases hins : insertFile db d u with
        | ok db1 =>
            rw [hins] at h
            obtain ⟨r, hr, hru⟩ := insertFile_files db d u db1 hins
            obtain ⟨s, hs⟩ := runMesgs_files_mono u rest db1 _ db2 h
            refine ⟨r, ?_, hru⟩
            rw [hs, hr]
            simp
        | error e2 => rw [hins] at h; cases h
      · cases m with
        | fileId d2 =>
            rw [runMesgs] at h
            cases hins : insertFile db d2 u with
            | ok db1 => rw [hins] at h; exact ih db1 _ h ⟨d, htl⟩
            | error e2 => rw [hins] at h; cases h
        | lap d2 =>
            rw [runMesgs] at h
            cases hins : insertLap db d2 fid with
            | ok db1 => rw [hins] at h; exact ih db1 _ h ⟨d, htl⟩
            | error e2 => rw [hins] at h; cases h
        | record d2 =>
            rw [runMesgs] at h
            cases hins : insertRecord db d2 fid with
            | ok db1 => rw [hins] at h; exact ih db1 _ h ⟨d, htl⟩
            | error e2 => rw [hins] at h; cases h
        | other => rw [runMesgs] at h; exact ih db fid h ⟨d, htl⟩

/-! ### C3: missing file-identity handling -/

/-- C3 (code evaluated at the failing input): a decoded sequence with no
file-identity message does not make the import fail with
`FileIdMessageNotFound` — the import engine never constructs that error at
all (first conjunct), and on a sequence with no file-identity and no
record/lap messages the import even commits and succeeds, persisting
nothing (second conjunct, the concrete failing input). -/
theorem claim_C3_no_file_identity_error :
    (∀ (db : Db) (data : List Nat) (msgs : List Mesg) (s : String),
        (import_fit_data db data (.ok msgs)).2 ≠
          .error (.FileIdMessageNotFound s)) ∧
      import_fit_data emptyDb [] (.ok [.other]) =
        (emptyDb, .ok (generate_uuid [])) := by
  refine ⟨fun db data msgs s => ?_, rfl⟩
  simp only [import_fit_data]
  split
  · simp
  · cases hrun : runMesgs (generate_uuid data) msgs db none with
    | ok db2 => simp
    | error e =>
        obtain ⟨m, hm⟩ := runMesgs_error_shape _ _ _ _ _ hrun
        subst hm
        simp

/-! ### C4: record and lap messages before the first file-identity -/

/-- The field map of the record message used as C4's failing input. -/
def recDataC4 : FieldMap := [("timestamp", 7)]

/-- The field map of a complete file-identity message. -/
def fileDataC45 : FieldMap :=
  [("type", 4), ("serial_number", 123), ("time_created", 0)]

/-- C4 (code evaluated at the failing input): a record message before the
first file-identity message is not disregarded: its insert binds `NULL`
into the `not null` `file_id` column, the statement fails, and the
whole import aborts with a storage error and persists nothing — the following
file-identity message is never reached (first conjunct).  Only when the
file-identity message comes first do record messages produce rows bound to
the current file identifier (second conjunct). -/
theorem claim_C4_pre_fileid_record_fatal :
    import_fit_data emptyDb []
        (.ok [.record recDataC4, .fileId fileDataC45]) =
      (emptyDb,
        .error (.Rusqlite "NOT NULL constraint failed: record_messages")) ∧
    import_fit_data emptyDb [] (.ok [.fileId fileDataC45, .record recDataC4]) =
      (⟨[⟨4, none, none, 123, 0, generate_uuid [], 1⟩],
        [⟨none, none, none, none, none, 7, 1, 1⟩], []⟩,
        .ok (generate_uuid [])) := by
  exact ⟨rfl, rfl⟩

/-! ### C5: dedup on re-import -/

/-- C5 counterexample: importing the same bytes twice does not always yield
`DuplicateFile` on the second call.  When the first import's decoded
sequence had no file-identity message the import succeeds without
inserting any file row (the missing `FileIdMessageNotFound` check of C3),
so the second import of the very same bytes succeeds again instead of
failing with `DuplicateFile`. -/
theorem claim_C5_counterexample :
    (import_fit_data emptyDb [] (.ok [])).2 = .ok (generate_uuid []) ∧
      (import_fit_data (import_fit_data emptyDb [] (.ok [])).1 []
          (.ok [])).2 = .ok (generate_uuid []) ∧
      ∀ u : String,
        (import_fit_data (import_fit_data emptyDb [] (.ok [])).1 []
            (.ok [])).2 ≠ .error (.DuplicateFileError u) := by
  refine ⟨rfl, rfl, fun u => ?_⟩
  intro h
  rw [show (import_fit_data (import_fit_data emptyDb [] (.ok [])).1 []
      (.ok [])).2 = .ok (generate_uuid []) from rfl] at h
  cases h

/-- C5 (amended): when the first import of the pair processed at least one
file-identity message (so its committed transaction holds a file row
carrying the fingerprint), the second import of bytes with the same
fingerprint fails with `DuplicateFile(fingerprint)` straight away: the
outcome is independent of the second decode result (the duplicate check
runs before decoding), and the database is exactly the one the
first import call left: no row was written and the first import's row
counts are unchanged. -/
theorem claim_C5_amended_dedup (db db1 : Db) (d1 d2 : List Nat)
    (m1 : List Mesg) (dec2 : Except Error (List Mesg)) (u : String)
    (hfp : generate_uuid d2 = generate_uuid d1)
    (hfid : ∃ fd, Mesg.fileId fd ∈ m1)
    (h1 : import_fit_data db d1 (.ok m1) = (db1, .ok u)) :
    import_fit_data db1 d2 dec2 =
      (db1, .error (.DuplicateFileError (generate_uuid d2))) := by
  simp only [import_fit_data] at h1
  split at h1
  · simp at h1
  · cases hrun : runMesgs (generate_uuid d1) m1 db none with
    | error e => simp only [hrun] at h1; simp at h1
    | ok db2 =>
        simp only [hrun] at h1
        have hdb : db1 = db2 := (congrArg Prod.fst h1).symm
        subst hdb
        obtain ⟨f, hf, hfu⟩ := runMesgs_fileId_uuid _ _ _ _ _ hrun hfid
        have hany : db1.files.any (fun f => f.uuid = generate_uuid d2)
            = true := by
          rw [List.any_eq_true]
          refine ⟨f, hf, ?_⟩
          rw [hfp]
          exact decide_eq_true hfu
        unfold import_fit_data
        rw [hany]
        simp

/-- The database left by the witness's first import. -/
def dbC5 : Db := ⟨[⟨4, none, none, 123, 0, generate_uuid [], 1⟩], [], []⟩

/-- Witness for C5 (amended), at a first import of one file-identity
message followed by a re-import of the same (empty) byte sequence. -/
theorem claim_C5_amended_dedup_witness :
    generate_uuid [] = generate_uuid [] ∧
      (∃ fd, Mesg.fileId fd ∈ [Mesg.fileId fileDataC45]) ∧
      import_fit_data emptyDb [] (.ok [Mesg.fileId fileDataC45]) =
        (dbC5, .ok (generate_uuid [])) ∧
      import_fit_data dbC5 [] (.ok []) =
        (dbC5, .error (.DuplicateFileError (generate_uuid []))) :=
  ⟨rfl, ⟨fileDataC45, List.mem_cons_self _ _⟩, rfl,
    claim_C5_amended_dedup emptyDb dbC5 [] [] [Mesg.fileId fileDataC45]
      (.ok []) (generate_uuid []) rfl ⟨fileDataC45, List.mem_cons_self _ _⟩
      rfl⟩

/-! ### C6: enrichment write-back and counts -/

/-- Sequential by-id record updates are pointwise: a row picks up the
elevation of the first (with distinct ids: the only) update naming its id
and is untouched otherwise. -/
theorem foldl_updateRecord_char (ps : List (Location × Int)) (db : EDb)
    (hnodup : (ps.map (fun p => p.2)).Nodup) :
    ps.foldl (fun d p => updateRecordElevation d p.2 p.1.elevation) db =
      { db with record_messages := db.record_messages.map (fun r =>
          match ps.find? (fun p => p.2 == r.id) with
          | some p => { r with elevation := p.1.elevation }
          | none => r) } := by
  induction ps generalizing db with
  | nil => simp
  | cons p ps ih =>
      rw [List.foldl_cons, ih _ (List.nodup_cons.mp hnodup).2]
      unfold updateRecordElevation
      refine congrArg (fun x => EDb.mk x db.lap_messages) ?_
      rw [List.map_map]
      refine List.map_congr_left (fun r hr => ?_)
      by_cases hid : r.id = p.2
      · have hnone : ps.find? (fun q => q.2 == r.id) = none := by
          refine List.find?_eq_none.mpr (fun q hq => ?_)
          have hqne : q.2 ≠ p.2 := by
            intro hqp
            refine (List.nodup_cons.mp hnodup).1 ?_
            simpa [hqp] using List.mem_map_of_mem (fun p => p.2) hq
          simp [hid, hqne]
        have hpos : (p.2 == r.id) = true := by simp [hid]
        have hfind : List.find? (fun q => q.2 == r.id) (p :: ps) = some p :=
          List.find?_cons_of_pos _ hpos
        simp only [Function.comp_apply, if_pos hid, hnone, hfind]
      · have hneg : ¬ (p.2 == r.id) = true := by simp [Ne.symm hid]
        have hfind : List.find? (fun q => q.2 == r.id) (p :: ps) =
            List.find? (fun q => q.2 == r.id) ps :=
          List.find?_cons_of_neg _ hneg
        simp only [Function.comp_apply, if_neg hid, hfind]

/-- Sequential by-id lap updates are pointwise, writing both the start and
the end elevation of the update naming the row's id. -/
theorem foldl_updateLap_char (ps : List ((Location × Location) × Int))
    (db : EDb) (hnodup : (ps.map (fun p => p.2)).Nodup) :
    ps.foldl
        (fun d p => updateLapElevation d p.2 p.1.1.elevation p.1.2.elevation)
        db =
      { db with lap_messages := db.lap_messages.map (fun r =>
          match ps.find? (fun p => p.2 == r.id) with
          | some p => { r with
              start_elevation := p.1.1.elevation,
              end_elevation := p.1.2.elevation }
          | none => r) } := by
  induction ps generalizing db with
  | nil => simp
  | cons p ps ih =>
      rw [List.foldl_cons, ih _ (List.nodup_cons.mp hnodup).2]
      unfold updateLapElevation
      refine congrArg (fun x => EDb.mk db.record_messages x) ?_
      rw [List.map_map]
      refine List.map_congr_left (fun r hr => ?_)
      by_cases hid : r.id = p.2
      · have hnone : ps.find? (fun q => q.2 == r.id) = none := by
          refine List.find?_eq_none.mpr (fun q hq => ?_)
          have hqne : q.2 ≠ p.2 := by
            intro hqp
            refine (List.nodup_cons.mp hnodup).1 ?_
            simpa [hqp] using List.mem_map_of_mem (fun p => p.2) hq
          simp [hid, hqne]
        have hpos : (p.2 == r.id) = true := by simp [hid]
        have hfind : List.find? (fun q => q.2 == r.id) (p :: ps) = some p :=
          List.find?_cons_of_pos _ hpos
        simp only [Function.comp_apply, if_pos hid, hnone, hfind]
      · have hneg : ¬ (p.2 == r.id) = true := by simp [Ne.symm hid]
        have hfind : List.find? (fun q => q.2 == r.id) (p :: ps) =
            List.find? (fun q => q.2 == r.id) ps :=
          List.find?_cons_of_neg _ hneg
        simp only [Function.comp_apply, if_neg hid, hfind]

/-- A service that fills elevation 7 for every location. -/
def svcC6 : ElevationSvc :=
  fun ls => .ok (ls.map (fun l => l.set_elevation (some 7)))

/-- One lap row with start and end coordinates and no elevation yet. -/
def lapRowC6 : ELapRow := ⟨some 0, some 0, none, some 0, some 0, none, 1, 1⟩

def lapDbC6 : EDb := ⟨[], [lapRowC6]⟩

/-- C6 counterexample: the lap counts are not `(number of Locations with
non-null elevation, number of Locations attempted)`.  The single selected
lap row contributes two attempted locations, and after the service call
both carry non-null elevation (second conjunct: the claim-side pair is
`(2, 2)`), both get written back — yet the engine reports `(1, 1)`,
counting lap rows by their start location only. -/
theorem claim_C6_counterexample :
    update_elevation_data svcC6 lapDbC6 none false =
        .ok (⟨[], [⟨some 0, some 0, some 7, some 0, some 0, some 7, 1, 1⟩]⟩,
          (0, 0), (1, 1)) ∧
      (svcC6 [lapStartLoc lapRowC6, lapEndLoc lapRowC6]).map
          (fun ls => ((ls.filter (fun l => l.elevation.isSome)).length,
            ls.length)) = .ok (2, 2) ∧
      ((1 : Nat), (1 : Nat)) ≠ ((2 : Nat), (2 : Nat)) :=
  ⟨rfl, rfl, by decide⟩

/-- C6 (amended): for every enrichment run reaching the write-back step,
every selected row is written back by its row identifier, with a
still-absent elevation written as an explicit null; the record counts are
exactly (record locations with non-null elevation, record rows attempted),
while the lap counts are (lap rows whose START location has non-null
elevation, lap rows attempted) — lap end elevations are written back but
never counted. -/
theorem claim_C6_amended_writeback (src : ElevationSvc) (db : EDb)
    (recRows : List ERecordRow) (lapRows : List ELapRow)
    (rlocs stlocs enlocs : List Location)
    (hrec : src (recRows.map recLoc) = .ok rlocs)
    (hrlen : rlocs.length = recRows.length)
    (hrnodup : (recRows.map (fun r => r.id)).Nodup)
    (hst : src (lapRows.map lapStartLoc) = .ok stlocs)
    (hstlen : stlocs.length = lapRows.length)
    (hen : src (lapRows.map lapEndLoc) = .ok enlocs)
    (henlen : enlocs.length = lapRows.length)
    (hlnodup : (lapRows.map (fun r => r.id)).Nodup) :
    add_record_elevation_data src db recRows =
        .ok ({ db with record_messages := db.record_messages.map (fun r =>
            match (rlocs.zip (recRows.map (fun q => q.id))).find?
                (fun p => p.2 == r.id) with
            | some p => { r with elevation := p.1.elevation }
            | none => r) },
          (rlocs.filter (fun l => l.elevation.isSome)).length,
          recRows.length) ∧
      add_lap_elevation_data src db lapRows =
        .ok ({ db with lap_messages := db.lap_messages.map (fun r =>
            match ((stlocs.zip enlocs).zip (lapRows.map (fun q => q.id))).find?
                (fun p => p.2 == r.id) with
            | some p => { r with
                start_elevation := p.1.1.elevation,
                end_elevation := p.1.2.elevation }
            | none => r) },
          (stlocs.filter (fun l => l.elevation.isSome)).length,
          lapRows.length) := by
  constructor
  · have hnodup2 : ((rlocs.zip (recRows.map (fun q => q.id))).map
        (fun p => p.2)).Nodup := by
      rw [List.map_snd_zip _ _ (le_of_eq (by rw [hrlen, List.length_map]))]
      exact hrnodup
    simp only [add_record_elevation_data, hrec]
    rw [foldl_updateRecord_char _ db hnodup2]
    simp
  · have hnodup2 : (((stlocs.zip enlocs).zip (lapRows.map (fun q => q.id))).map
        (fun p => p.2)).Nodup := by
      rw [List.map_snd_zip _ _ ?hle]
      · exact hlnodup
      case hle =>
        rw [List.length_map, List.length_zip, hstlen, henlen]
        simp
    simp only [add_lap_elevation_data, hst, hen]
    rw [foldl_updateLap_char _ db hnodup2]
    simp

/-- The witness service: every location gets elevation 2. -/
def svcW6 : ElevationSvc :=
  fun ls => .ok (ls.map (fun l => l.set_elevation (some 2)))

def recRowW6 : ERecordRow := ⟨some 0, some 0, none, 1, 10⟩

def lapRowW6 : ELapRow := ⟨some 0, some 0, none, some 0, some 0, none, 1, 20⟩

def dbW6 : EDb := ⟨[recRowW6], [lapRowW6]⟩

/-- Witness for C6 (amended), on one record row and one lap row. -/
theorem claim_C6_amended_writeback_witness :
    svcW6 ([recRowW6].map recLoc) =
        .ok [(recLoc recRowW6).set_elevation (some 2)] ∧
      [(recLoc recRowW6).set_elevation (some 2)].length =
        [recRowW6].length ∧
      ([recRowW6].map (fun r => r.id)).Nodup ∧
      svcW6 ([lapRowW6].map lapStartLoc) =
        .ok [(lapStartLoc lapRowW6).set_elevation (some 2)] ∧
      svcW6 ([lapRowW6].map lapEndLoc) =
        .ok [(lapEndLoc lapRowW6).set_elevation (some 2)] ∧
      ([lapRowW6].map (fun r => r.id)).Nodup ∧
      add_record_elevation_data svcW6 dbW6 [recRowW6] =
        .ok (⟨[⟨some 0, some 0, some 2, 1, 10⟩], [lapRowW6]⟩, 1, 1) ∧
      add_lap_elevation_data svcW6 dbW6 [lapRowW6] =
        .ok (⟨[recRowW6], [⟨some 0, some 0, some 2, some 0, some 0, some 2, 1,
          20⟩]⟩, 1, 1) := by
  have h := claim_C6_amended_writeback svcW6 dbW6 [recRowW6] [lapRowW6]
    [(recLoc recRowW6).set_elevation (some 2)]
    [(lapStartLoc lapRowW6).set_elevation (some 2)]
    [(lapEndLoc lapRowW6).set_elevation (some 2)]
    rfl rfl (by decide) rfl rfl rfl rfl (by decide)
  exact ⟨rfl, rfl, by decide, rfl, rfl, by decide, h.1, h.2⟩

/-! ### C8 and C10: polyline codec -/

theorem scale_38_5 : scale (38.5 : Rat) = 3850000 := by
  have h : (100000 : Rat) * 38.5 = 3850000 := by norm_num
  rw [scale, h]
  norm_num

theorem scale_neg_120_2 : scale (-120.2 : Rat) = -12020000 := by
  have h : (100000 : Rat) * (-120.2) = -12020000 := by norm_num
  rw [scale, h]
  norm_num

theorem scale_40_7 : scale (40.7 : Rat) = 4070000 := by
  have h : (100000 : Rat) * 40.7 = 4070000 := by norm_num
  rw [scale, h]
  norm_num

theorem scale_neg_120_95 : scale (-120.95 : Rat) = -12095000 := by
  have h : (100000 : Rat) * (-120.95) = -12095000 := by norm_num
  rw [scale, h]
  norm_num

theorem encode_lat1 : encode 3850000 0 = .ok "_p~iF" := by rfl

theorem encode_lon1 : encode (-12020000) 0 = .ok "~ps|U" := by rfl

theorem encode_lat2 : encode 4070000 3850000 = .ok "_ulL" := by rfl

theorem encode_lon2 : encode (-12095000) (-12020000) = .ok "nnqC" := by rfl

/-- One step of the encoding fold, with the scaled values given by
hypothesis so that concrete degree inputs never reach definitional
reduction. -/
theorem encLoop_cons (a : Location) (rest : List Location) (b : Int × Int)
    (out : String) (s1 s2 : Int) (h1 : scale a.latitude = s1)
    (h2 : scale a.longitude = s2) :
    encLoop (a :: rest) b out =
      match encode s1 b.1 with
      | .error e => .error e
      | .ok e1 =>
          match encode s2 b.2 with
          | .error e => .error e
          | .ok e2 => encLoop rest (s1, s2) (out ++ e1 ++ e2) := by
  simp only [encLoop, h1, h2]

/-- Evaluation of the reference two-point vector: the scaled integers
(3850000, -12020000), (4070000, -12095000) — which the source's `f32`
computation also produces at these inputs — drive the pure integer
encoder. -/
theorem encode_coordinates_reference :
    encode_coordinates [⟨38.5, -120.2, none⟩, ⟨40.7, -120.95, none⟩] =
      .ok "_p~iF~ps|U_ulLnnqC" := by
  rw [encode_coordinates]
  rw [encLoop_cons _ _ _ _ _ _ scale_38_5 scale_neg_120_2]
  simp only [encode_lat1, encode_lon1]
  rw [encLoop_cons _ _ _ _ _ _ scale_40_7 scale_neg_120_95]
  simp only [encode_lat2, encode_lon2]
  rfl

/-- C8 counterexample: the two-point sequence does not encode to the
claim's 26-character string (that string is the standard three-point
vector with its final `@` dropped); the code produces the 18-character
prefix covering exactly two points. -/
theorem claim_C8_counterexample :
    encode_coordinates [⟨38.5, -120.2, none⟩, ⟨40.7, -120.95, none⟩] ≠
      .ok "_p~iF~ps|U_ulLnnqC_mqNvxq`" := by
  rw [encode_coordinates_reference]
  intro h
  rw [Except.ok.injEq] at h
  exact absurd h (by decide)

/-- C8 (amended): polyline encoding of [(38.5, -120.2), (40.7, -120.95)]
at 5-decimal-digit precision (scale by 100000 and round to nearest, delta
from the previous point, zig-zag transform, 5-bit continuation chunks
offset by 63, latitude then longitude per point) returns exactly
"_p~iF~ps|U_ulLnnqC". -/
theorem claim_C8_amended_reference_vector :
    encode_coordinates [⟨38.5, -120.2, none⟩, ⟨40.7, -120.95, none⟩] =
      .ok "_p~iF~ps|U_ulLnnqC" :=
  encode_coordinates_reference

theorem wrap32_id (n : Int) (h1 : -2147483648 ≤ n) (h2 : n < 2147483648) :
    wrap32 n = n := by
  unfold wrap32
  omega

/-- All codes of the chunk encoder lie in `[63, 126]` for nonnegative
inputs small enough for the fuel. -/
theorem chunkCodesFuel_range (fuel : Nat) (c : Int) (h0 : 0 ≤ c)
    (hlt : c < 32 * 32 ^ fuel) :
    ∀ code ∈ chunkCodesFuel fuel c, 63 ≤ code ∧ code ≤ 126 := by
  induction fuel generalizing c with
  | zero =>
      intro code hcode
      rw [chunkCodesFuel] at hcode
      simp at hcode
      subst hcode
      norm_num at hlt
      omega
  | succ fuel ih =>
      intro code hcode
      rw [chunkCodesFuel] at hcode
      by_cases hge : (0x20 : Int) ≤ c
      · rw [if_pos hge] at hcode
        rcases List.mem_cons.mp hcode with rfl | hcode
        · have hm1 : 0 ≤ c % 32 := Int.emod_nonneg c (by norm_num)
          have hm2 : c % 32 < 32 := Int.emod_lt_of_pos c (by norm_num)
          omega
        · refine ih (c / 32) (Int.ediv_nonneg h0 (by norm_num)) ?_ code hcode
          have hpow : (32 : Int) * 32 ^ (fuel + 1) = 32 * 32 ^ fuel * 32 := by
            ring
          rw [hpow] at hlt
          omega
      · rw [if_neg hge] at hcode
        simp at hcode
        subst hcode
        omega

theorem charFromU32_ok (n : Int) (h0 : 0 ≤ n) (h1 : n < 0xd800) :
    charFromU32 n = some (Char.ofNat n.toNat) := by
  have hm : n % 2 ^ 32 = n := Int.emod_eq_of_lt h0 (by omega)
  simp only [charFromU32, hm]
  rw [if_pos (Or.inl h1)]

theorem chunkChars_ok (codes : List Int)
    (h : ∀ code ∈ codes, 63 ≤ code ∧ code ≤ 126) :
    ∃ chars, chunkChars codes = some chars := by
  induction codes with
  | nil => exact ⟨[], rfl⟩
  | cons c rest ih =>
      obtain ⟨hc1, hc2⟩ := h c (List.mem_cons_self c rest)
      obtain ⟨chars, hch⟩ :=
        ih (fun code hcode => h code (List.mem_cons_of_mem _ hcode))
      refine ⟨Char.ofNat c.toNat :: chars, ?_⟩
      rw [chunkChars, charFromU32_ok c (by omega) (by omega), hch]

theorem chunksToString_ok (codes : List Int)
    (h : ∀ code ∈ codes, 63 ≤ code ∧ code ≤ 126) :
    ∃ s, chunksToString codes = .ok s := by
  obtain ⟨chars, hch⟩ := chunkChars_ok codes h
  refine ⟨String.mk chars, ?_⟩
  unfold chunksToString
  rw [hch]

/-- `encode` succeeds on every pair of scaled values within the range the
GPS conversion can produce: the deltas stay far inside `i32`, the zig-zag
value is nonnegative, and every chunk code maps to a character. -/
theorem encode_ok (current previous : Int)
    (hc1 : -18000000 ≤ current) (hc2 : current ≤ 18000000)
    (hp1 : -18000000 ≤ previous) (hp2 : previous ≤ 18000000) :
    ∃ s, encode current previous = .ok s := by
  simp only [encode]
  have hd : wrap32 (current - previous) = current - previous :=
    wrap32_id _ (by omega) (by omega)
  rw [hd]
  have hc0 : wrap32 ((current - previous) * 2) = (current - previous) * 2 :=
    wrap32_id _ (by omega) (by omega)
  rw [hc0]
  have hbig : (72000002 : Int) ≤ 32 * 32 ^ 32 := by norm_num
  by_cases hneg : current - previous < 0
  · rw [if_pos hneg]
    exact chunksToString_ok _
      (chunkCodesFuel_range 32 _ (by omega) (by omega))
  · rw [if_neg hneg]
    exact chunksToString_ok _
      (chunkCodesFuel_range 32 _ (by omega) (by omega))

/-- The nearest integer to a rational in `[0, M]` lies in `[0, M]`. -/
theorem round_nonneg_le (x : Rat) (M : Int) (h0 : 0 ≤ x)
    (hM : x ≤ (M : Rat)) : 0 ≤ round x ∧ round x ≤ M := by
  have hlo := sub_half_lt_round x
  have hhi := round_le_add_half x
  constructor
  · by_contra hcon
    push_neg at hcon
    have h1 : ((round x : Int) : Rat) ≤ -1 := by
      have h2 : round x ≤ -1 := by omega
      exact_mod_cast h2
    linarith
  · by_contra hcon
    push_neg at hcon
    have h1 : ((M : Int) : Rat) + 1 ≤ ((round x : Int) : Rat) := by
      have h2 : M + 1 ≤ round x := by omega
      exact_mod_cast h2
    linarith

/-- Scaling a degree value bounded by ±180 stays within ±18000000. -/
theorem scale_bound (q : Rat) (h1 : -180 ≤ q) (h2 : q ≤ 180) :
    -18000000 ≤ scale q ∧ scale q ≤ 18000000 := by
  unfold scale
  split
  · rename_i hneg
    have hb := round_nonneg_le (-(100000 * q)) 18000000 (by linarith)
      (by push_cast; linarith)
    omega
  · rename_i hpos
    push_neg at hpos
    have hb := round_nonneg_le (100000 * q) 18000000 hpos
      (by push_cast; linarith)
    omega

/-- The semicircle-to-degree conversion maps the `i32` range into ±180°. -/
theorem from_fit_degree_bound (n : Int) (h1 : -2147483648 ≤ n)
    (h2 : n ≤ 2147483648) :
    -180 ≤ (n : Rat) * 180 / 2147483648 ∧
      (n : Rat) * 180 / 2147483648 ≤ 180 := by
  have hn1 : (-2147483648 : Rat) ≤ (n : Rat) := by exact_mod_cast h1
  have hn2 : (n : Rat) ≤ 2147483648 := by exact_mod_cast h2
  constructor
  · rw [le_div_iff₀ (by norm_num : (0 : Rat) < 2147483648)]
    linarith
  · rw [div_le_iff₀ (by norm_num : (0 : Rat) < 2147483648)]
    linarith

/-- The encoding fold succeeds whenever every point's degrees are within
±180 and the previous scaled pair is within ±18000000. -/
theorem encLoop_ok (pts : List Location) :
    ∀ (b : Int × Int) (out : String),
      (∀ a ∈ pts, -180 ≤ a.latitude ∧ a.latitude ≤ 180 ∧
        -180 ≤ a.longitude ∧ a.longitude ≤ 180) →
      -18000000 ≤ b.1 → b.1 ≤ 18000000 → -18000000 ≤ b.2 → b.2 ≤ 18000000 →
      ∃ s, encLoop pts b out = .ok s := by
  induction pts with
  | nil => exact fun b out _ _ _ _ _ => ⟨out, rfl⟩
  | cons a rest ih =>
      intro b out hpts hb1 hb2 hb3 hb4
      obtain ⟨ha1, ha2, ha3, ha4⟩ := hpts a (List.mem_cons_self a rest)
      obtain ⟨hs1, hs2⟩ := scale_bound a.latitude ha1 ha2
      obtain ⟨hs3, hs4⟩ := scale_bound a.longitude ha3 ha4
      obtain ⟨e1, he1⟩ := encode_ok (scale a.latitude) b.1 hs1 hs2 hb1 hb2
      obtain ⟨e2, he2⟩ := encode_ok (scale a.longitude) b.2 hs3 hs4 hb3 hb4
      simp only [encLoop]
      simp only [he1, he2]
      exact ih (scale a.latitude, scale a.longitude) (out ++ e1 ++ e2)
        (fun x hx => hpts x (List.mem_cons_of_mem _ hx)) hs1 hs2 hs3 hs4

/-- C10: the polyline encoder never takes its failure branch on
coordinates that `Location` construction can produce: every chunk code
emitted for the (always nonnegative, ≤ 72000001) zig-zag values lies in
63..=126, so the character conversion always succeeds and
`encode_coordinates` returns `Ok` on every list of Locations built from
`i32` semicircle pairs. -/
theorem claim_C10_polyline_never_fails (semis : List (Int × Int))
    (hin : ∀ p ∈ semis, -2147483648 ≤ p.1 ∧ p.1 ≤ 2147483648 ∧
      -2147483648 ≤ p.2 ∧ p.2 ≤ 2147483648)
    (c : Int) (hc0 : 0 ≤ c) (hclt : c ≤ 72000001) :
    (∀ code ∈ chunkCodes c, 63 ≤ code ∧ code ≤ 126) ∧
      ∃ s, encode_coordinates (semis.map (fun p =>
        Location.from_fit_coordinates p.1 p.2)) = .ok s := by
  have hbig : (72000002 : Int) ≤ 32 * 32 ^ 32 := by norm_num
  constructor
  · exact chunkCodesFuel_range 32 c hc0 (by omega)
  · unfold encode_coordinates
    refine encLoop_ok _ (0, 0) "" ?_ (by norm_num) (by norm_num) (by norm_num)
      (by norm_num)
    intro a ha
    obtain ⟨p, hp, rfl⟩ := List.mem_map.mp ha
    obtain ⟨hp1, hp2, hp3, hp4⟩ := hin p hp
    obtain ⟨hlat1, hlat2⟩ := from_fit_degree_bound p.1 hp1 hp2
    obtain ⟨hlon1, hlon2⟩ := from_fit_degree_bound p.2 hp3 hp4
    exact ⟨hlat1, hlat2, hlon1, hlon2⟩

/-- Witness for C10 at the single origin point and zig-zag value 0. -/
theorem claim_C10_polyline_never_fails_witness :
    (∀ p ∈ [((0 : Int), (0 : Int))], -2147483648 ≤ p.1 ∧ p.1 ≤ 2147483648 ∧
        -2147483648 ≤ p.2 ∧ p.2 ≤ 2147483648) ∧
      (0 : Int) ≤ 0 ∧ (0 : Int) ≤ 72000001 ∧
      ((∀ code ∈ chunkCodes 0, 63 ≤ code ∧ code ≤ 126) ∧
        ∃ s, encode_coordinates ([((0 : Int), (0 : Int))].map (fun p =>
          Location.from_fit_coordinates p.1 p.2)) = .ok s) :=
  ⟨by decide, by decide, by decide,
    claim_C10_polyline_never_fails [((0 : Int), (0 : Int))] (by decide) 0
      (by decide) (by decide)⟩

end GarminRunTracker
